import Mathlib

/-!
# Verification of the Hypnotizing Double Pendulum simulation core

A shallow embedding of the simulation core of the `hypnotizing_double_pendulum`
repository (`pendulum.hpp` / `game.cpp` / the pendulum translation unit), together
with theorems settling the specification claims about it.

Modelling conventions:
* C++ `double` values are modelled as elements of an arbitrary
  `LinearOrderedField` (instantiated with `ℝ` in the claim theorems); `sin`,
  `cos` and `sqrt` are passed as explicit function parameters so that all
  definitions stay computable, and the claim theorems instantiate them with
  `Real.sin`, `Real.cos`, `Real.sqrt`.
* `std::vector` is modelled as `List`; in-place writes `v[i] = x` become
  `List.set i x` and in-bounds reads `v[i]` become `List.getD i default`
  (the simulation code only reads in bounds at the places the claims touch).
* `std::size_t` / loop counters are `Nat`.  The cast chain
  `(float)s * pendulums.size() / (settings.resetSamples + 1)` followed by
  `std::floor` is modelled as exact real arithmetic, whose floor coincides
  with natural-number division.
* The stateful `JoinedPendulum::Update` member function becomes a pure
  function `Update : JoinedPendulum R → JoinedPendulum R`; its two sequential
  `for` loops become the explicit index recursions `accelLoop` and `moveLoop`,
  preserving the source's write order so that read-after-write behaviour is
  represented faithfully.
* The throwing constructor `JoinedPendulum::JoinedPendulum` becomes a function
  into `Except String (JoinedPendulum R)`.
-/

set_option linter.unusedSectionVars false

namespace HypPend

/-- 2-component vector of field elements; embeds `Vector2Double` from
`pendulum.hpp` (two `double` fields `x`, `y`). -/
structure Vec2 (R : Type) where
  x : R
  y : R
  deriving Repr, DecidableEq

/-- One pendulum arm; embeds `struct Pendulum` from `pendulum.hpp`
(fields in source order). -/
structure Pendulum (R : Type) where
  position : Vec2 R
  velocity : Vec2 R
  length : R
  mass : R
  angle : R
  angularVelocity : R
  angularAcceleration : R
  deriving Repr, DecidableEq

/-- A chain of joined pendulums with its trajectory ring buffer; embeds
`struct JoinedPendulum` from `pendulum.hpp`. -/
structure JoinedPendulum (R : Type) where
  pendulums : List (Pendulum R)
  trajectories : List (Vec2 R)
  trajectoryIndex : Nat
  deriving Repr, DecidableEq

/-- The configuration fields of `struct SimulationSettings` that the
simulation core reads (the color fields are consumed only by the renderer). -/
structure SimulationSettings (R : Type) where
  gravity : R
  fixedDeltaTime : R
  pendulumsJoined : Nat
  joinedPendulumsCount : Nat
  trajectoryPoints : Nat
  pendulumLength : R
  pendulumMass : R
  resetThreshold : R
  resetSamples : Nat
  resetFadeTime : R
  deriving Repr

variable {R : Type} [LinearOrderedField R]

/-- The zero vector, the value produced by C++ value-initialization of
`Vector2Double` (used for `trajectories.resize`). -/
def vzero : Vec2 R := ⟨0, 0⟩

/-- The value produced by the default `Pendulum()` constructor (all fields
zero); also used as the `getD` fallback for reads the source performs
in bounds. -/
def defPendulum : Pendulum R :=
  { position := vzero, velocity := vzero, length := 0, mass := 0,
    angle := 0, angularVelocity := 0, angularAcceleration := 0 }

/-- The value produced by the default `JoinedPendulum()` constructor. -/
def defChain : JoinedPendulum R :=
  { pendulums := [], trajectories := [], trajectoryIndex := 0 }

/-- The persistent state of the reset controller in `game.cpp`: the reset
generation counter `resets` and the sentinel-encoded pending-reset time
`initiatedReset` (`0.0` means no reset is pending, i.e. the `Running`
state; any other value is the absolute time of the scheduled reset,
i.e. the `ResetArmed` state). -/
structure ResetState (R : Type) where
  resets : Nat
  initiatedReset : R
  deriving Repr, DecidableEq

/-- One pass of the reset-controller logic of `GameUpdate` (`game.cpp`,
the "Reset after divergence" / "Reset calculation" blocks): given the
policy parameters, the current time, the divergence reading and the two
input flags (`resetKey` = R pressed, `continueKey` = C held), produce the
next controller state.  The armed branch models the
`resets++; InitializePendulums(resets); initiatedReset = 0.0;` block by
its effect on the controller state. -/
def ResetStep (resetThreshold resetFadeTime now divergence : R)
    (resetKey continueKey : Bool) (st : ResetState R) : ResetState R :=
  if st.initiatedReset ≠ 0 then
    if st.initiatedReset ≤ now then
      { resets := st.resets + 1, initiatedReset := 0 }
    else
      st
  else
    if ¬ continueKey ∧ (resetKey ∨ resetThreshold < divergence) then
      { st with initiatedReset := now + resetFadeTime }
    else
      st

/-- First-body angular acceleration of an adjacent pendulum pair: the
formula assigned to `p1.angularAcceleration` in the acceleration loop of
`JoinedPendulum::Update` (variables named after the source locals). -/
def accFirst (sin cos : R → R) (g a1 a2 m1 m2 l1 l2 w1 w2 : R) : R :=
  let n1 := -g * (2 * m1 + m2) * sin a1
  let n2 := -m2 * g * sin (a1 - 2 * a2)
  let n3 := -2 * sin (a1 - a2) * m2
  let n4 := w2 * w2 * l2 + w1 * w1 * l1 * cos (a1 - a2)
  let d := l1 * (2 * m1 + m2 - m2 * cos (2 * a1 - 2 * a2))
  (n1 + n2 + n3 * n4) / d

/-- Second-body angular acceleration of an adjacent pendulum pair: the
formula assigned to `p2.angularAcceleration` in the acceleration loop of
`JoinedPendulum::Update`. -/
def accSecond (sin cos : R → R) (g a1 a2 m1 m2 l1 l2 w1 w2 : R) : R :=
  let n1 := 2 * sin (a1 - a2)
  let n2 := w1 * w1 * l1 * (m1 + m2)
  let n3 := g * (m1 + m2) * cos a1
  let n4 := w2 * w2 * l2 * m2 * cos (a1 - a2)
  let d := l2 * (2 * m1 + m2 - m2 * cos (2 * a1 - 2 * a2))
  (n1 * (n2 + n3 + n4)) / d

/-- `accFirst` applied to the fields of the pair at positions `j`, `j+1` of a
pendulum list (the value pair `j` writes into its first body). -/
def pairAccFirst (sin cos : R → R) (g : R) (ps : List (Pendulum R)) (j : Nat) : R :=
  let p1 := ps.getD j defPendulum
  let p2 := ps.getD (j + 1) defPendulum
  accFirst sin cos g p1.angle p2.angle p1.mass p2.mass p1.length p2.length
    p1.angularVelocity p2.angularVelocity

/-- `accSecond` applied to the fields of the pair at positions `j`, `j+1` of a
pendulum list (the value pair `j` writes into its second body). -/
def pairAccSecond (sin cos : R → R) (g : R) (ps : List (Pendulum R)) (j : Nat) : R :=
  let p1 := ps.getD j defPendulum
  let p2 := ps.getD (j + 1) defPendulum
  accSecond sin cos g p1.angle p2.angle p1.mass p2.mass p1.length p2.length
    p1.angularVelocity p2.angularVelocity

/-- One iteration (index `i`) of the acceleration loop of
`JoinedPendulum::Update`: read `p1 = pendulums[i]`, `p2 = pendulums[i+1]`,
then write `p1.angularAcceleration` and `p2.angularAcceleration`.  The
source reads all locals (`a1`, ..., `w2`) before either write, which the
`let`-bindings reproduce. -/
def accelStep (sin cos : R → R) (g : R) (ps : List (Pendulum R)) (i : Nat) :
    List (Pendulum R) :=
  let p1 := ps.getD i defPendulum
  let p2 := ps.getD (i + 1) defPendulum
  let acc1 := pairAccFirst sin cos g ps i
  let acc2 := pairAccSecond sin cos g ps i
  (ps.set i { p1 with angularAcceleration := acc1 }).set (i + 1)
    { p2 with angularAcceleration := acc2 }

/-- The acceleration loop `for (i = 0; i < k; i++)` of
`JoinedPendulum::Update`, run for the first `k` pair indices in source
order (the call site uses `k = n - 1`). -/
def accelLoop (sin cos : R → R) (g : R) (ps : List (Pendulum R)) : Nat → List (Pendulum R)
  | 0 => ps
  | k + 1 => accelStep sin cos g (accelLoop sin cos g ps k) k

/-- One iteration (index `i`) of the angle/position loop of
`JoinedPendulum::Update`: accumulate `angularVelocity`, advance `angle`,
then recompute `position` (anchored at the origin for `i = 0`, otherwise
hanging off the already-updated previous pendulum). -/
def moveStep (sin cos : R → R) (dt : R) (ps : List (Pendulum R)) (i : Nat) :
    List (Pendulum R) :=
  let p := ps.getD i defPendulum
  let vel := p.angularVelocity + p.angularAcceleration * dt
  let ang := p.angle + vel * dt
  let pos : Vec2 R :=
    if i = 0 then
      ⟨p.length * sin ang, p.length * cos ang⟩
    else
      let pp := ps.getD (i - 1) defPendulum
      ⟨pp.position.x + p.length * sin ang, pp.position.y + p.length * cos ang⟩
  ps.set i { p with angularVelocity := vel, angle := ang, position := pos }

/-- The angle/position loop `for (i = 0; i < k; i++)` of
`JoinedPendulum::Update`, run for the first `k` indices in source order
(the call site uses `k = n`). -/
def moveLoop (sin cos : R → R) (dt : R) (ps : List (Pendulum R)) : Nat → List (Pendulum R)
  | 0 => ps
  | k + 1 => moveStep sin cos dt (moveLoop sin cos dt ps k) k

/-- `JoinedPendulum::Update`: one integrator tick for one chain, with
`g = settings.gravity` and `dt = settings.fixedDeltaTime`.  The `n == 0`
and `n == 1` branches return before the trajectory write, exactly as the
source does; the multi-segment branch runs the acceleration loop, then the
angle/position loop, then records `pendulums[n-1].position` at the cursor
and advances the cursor modulo the buffer size. -/
def Update (sin cos : R → R) (g dt : R) (jp : JoinedPendulum R) : JoinedPendulum R :=
  let n := jp.pendulums.length
  if n = 0 then
    jp
  else if n = 1 then
    let p := jp.pendulums.getD 0 defPendulum
    let acc := -g / p.length * sin p.angle
    let vel := acc * dt
    let ang := p.angle + vel * dt
    let pos : Vec2 R := ⟨p.length * sin ang, p.length * cos ang⟩
    let p1 : Pendulum R :=
      { p with angularAcceleration := acc, angularVelocity := vel,
               angle := ang, position := pos }
    { jp with pendulums := jp.pendulums.set 0 p1 }
  else
    let ps2 := moveLoop sin cos dt (accelLoop sin cos g jp.pendulums (n - 1)) n
    { pendulums := ps2,
      trajectories := jp.trajectories.set jp.trajectoryIndex
        ((ps2.getD (n - 1) defPendulum).position),
      trajectoryIndex := (jp.trajectoryIndex + 1) % jp.trajectories.length }

/-- Agreement of two pendulums on every field except
`angularAcceleration`; used to state that the acceleration loop of
`JoinedPendulum::Update` writes nothing but accelerations. -/
def sameBase (p q : Pendulum R) : Prop :=
  p.position = q.position ∧ p.velocity = q.velocity ∧ p.length = q.length ∧
    p.mass = q.mass ∧ p.angle = q.angle ∧ p.angularVelocity = q.angularVelocity

/-- The chain index sampled by `GetDivergence` for sample `s`:
`std::floor((float)s * pendulums.size() / (settings.resetSamples + 1))`,
which over exact arithmetic is the natural-number division
`s * chainCount / (resetSamples + 1)`. -/
def sampleIndex (chainCount resetSamples s : Nat) : Nat :=
  s * chainCount / (resetSamples + 1)

/-- Euclidean distance between two points as computed in `GetDivergence`:
`l = (p1 - p2); sqrt(l.x*l.x + l.y*l.y)`. -/
def distV (sqrt : R → R) (p1 p2 : Vec2 R) : R :=
  let l : Vec2 R := ⟨p1.x - p2.x, p1.y - p2.y⟩
  sqrt (l.x * l.x + l.y * l.y)

/-- The tip position `chain.pendulums.back().position` read by
`GetDivergence`. -/
def tipOf (jp : JoinedPendulum R) : Vec2 R :=
  (jp.pendulums.getLastD defPendulum).position

/-- `GetDivergence` from the pendulum translation unit: returns `0.0` for an
empty population, otherwise accumulates the tip distance of the sampled
adjacent chain pairs over `s = 0, ..., resetSamples - 1` and divides by
`resetSamples`. -/
def GetDivergence (sqrt : R → R) (resetSamples : Nat)
    (pop : List (JoinedPendulum R)) : R :=
  if pop.isEmpty then 0
  else
    let total := (List.range resetSamples).foldl
      (fun acc s =>
        let i := sampleIndex pop.length resetSamples s
        acc + distV sqrt (tipOf (pop.getD i defChain)) (tipOf (pop.getD (i + 1) defChain)))
      0
    total / (resetSamples : R)

/-- Modelled from the spec's words for the Divergence Estimator (for the
refinement claim about `GetDivergence`): "return the mean over `s` in
`[0, resetSampleCount)` of the Euclidean distance between the final-segment
tip positions of the chain at index
`floor(s * chainCount / (resetSampleCount + 1))` and the chain at that
index plus one; for the empty Population it returns exactly `0.0`". -/
def specDivergence [FloorRing R] (sqrt : R → R) (resetSampleCount : Nat)
    (pop : List (JoinedPendulum R)) : R :=
  if pop = [] then 0
  else
    (∑ s ∈ Finset.range resetSampleCount,
        distV sqrt
          (tipOf (pop.getD (⌊(s : R) * (pop.length : R) / ((resetSampleCount : R) + 1)⌋₊) defChain))
          (tipOf (pop.getD (⌊(s : R) * (pop.length : R) / ((resetSampleCount : R) + 1)⌋₊ + 1) defChain)))
      / (resetSampleCount : R)

/-- The pendulum list built by the constructor's first loop
(`pendulums.resize(size); pendulums[i] = Pendulum(lengths[i], masses[i],
initialAngles[i])`): every element gets position/velocity `(0,0)` and zero
angular velocity/acceleration from the `Pendulum` constructor. -/
def mkPendulumList (lengths masses initialAngles : List R) (size : Nat) :
    List (Pendulum R) :=
  (List.range size).map fun i =>
    { position := vzero, velocity := vzero,
      length := lengths.getD i 0, mass := masses.getD i 0,
      angle := initialAngles.getD i 0,
      angularVelocity := 0, angularAcceleration := 0 }

/-- The constructor's second loop (`for i = 1; ...`): chain each pendulum's
position off the previous pendulum's position.  `prev` is the position of
the preceding pendulum; the first element of the whole chain is handled at
the call site (the source loop starts at `i = 1`, leaving
`pendulums[0].position` at the constructor value `(0,0)`). -/
def chainFrom (sin cos : R → R) : Vec2 R → List (Pendulum R) → List (Pendulum R)
  | _, [] => []
  | prev, p :: ps =>
      let p1 : Pendulum R :=
        { p with position := ⟨prev.x + p.length * sin p.angle,
                              prev.y + p.length * cos p.angle⟩ }
      p1 :: chainFrom sin cos p1.position ps

/-- The fully positioned pendulum list produced by the
`JoinedPendulum` constructor body after both loops. -/
def buildChain (sin cos : R → R) (lengths masses initialAngles : List R)
    (size : Nat) : List (Pendulum R) :=
  match mkPendulumList lengths masses initialAngles size with
  | [] => []
  | p :: rest => p :: chainFrom sin cos p.position rest

/-- Whether an `Except` result is the error case (the embedding of "the
constructor threw"). -/
def isFailure {ε α : Type} : Except ε α → Bool
  | Except.error _ => true
  | Except.ok _ => false

/-- The `JoinedPendulum(size, lengths, masses, initialAngles,
trajectoriesSize)` constructor: the three size checks `throw`
(modelled as `Except.error` with the source's message) before any chain
state is produced; otherwise the pendulum list is built and chained, the
trajectory buffer is `resize`d to `trajectoriesSize` zero vectors, and the
cursor starts at `0`. -/
def mkJoinedPendulum (sin cos : R → R) (size : Nat)
    (lengths masses initialAngles : List R) (trajectoriesSize : Nat) :
    Except String (JoinedPendulum R) :=
  if lengths.length ≠ size then
    Except.error "Invalid size provided for lengths"
  else if masses.length ≠ size then
    Except.error "Invalid size provided for masses"
  else if initialAngles.length ≠ size then
    Except.error "Invalid size provided for initialAngles"
  else
    Except.ok
      { pendulums := buildChain sin cos lengths masses initialAngles size,
        trajectories := List.replicate trajectoriesSize vzero,
        trajectoryIndex := 0 }

/-- `std::fmod` for the nonnegative-dividend, positive-divisor arguments the
seeding routine uses (where C truncated remainder and floored remainder
agree): `fmod x y = x - y * floor (x / y)`. -/
def fmod [FloorRing R] (x y : R) : R := x - y * (⌊x / y⌋ : ℤ)

/-- `InitializePendulums(resets)`: build `joinedPendulumsCount` chains, each
with `pendulumsJoined` segments of the configured length and mass.  All
initial angles are `π` except the first, which receives the per-chain and
per-generation perturbation of the source:
`PI + 0.125 + (double)i / pendulums.size() * 0.0001` followed by
`+= fmod(resets * 0.5 + PI / 8.0, PI / 4) - PI / 8.0`.
`pi` is passed explicitly (raylib's `PI`), instantiated with `Real.pi`. -/
def InitializePendulums [FloorRing R] (sin cos : R → R) (pi : R)
    (s : SimulationSettings R) (resets : Nat) :
    List (Except String (JoinedPendulum R)) :=
  (List.range s.joinedPendulumsCount).map fun (i : Nat) =>
    let lengths := List.replicate s.pendulumsJoined s.pendulumLength
    let masses := List.replicate s.pendulumsJoined s.pendulumMass
    let a0 := pi + 0.125 + (i : R) / (s.joinedPendulumsCount : R) * 0.0001
      + (fmod ((resets : R) * 0.5 + pi / 8) (pi / 4) - pi / 8)
    let initialAngles := (List.replicate s.pendulumsJoined pi).set 0 a0
    mkJoinedPendulum sin cos s.pendulumsJoined lengths masses initialAngles
      s.trajectoryPoints

/-! ## Helper lemmas -/

theorem getD_set {α : Type} (l : List α) (i j : Nat) (a d : α) :
    (l.set i a).getD j d = if i = j ∧ i < l.length then a else l.getD j d := by
  rcases Decidable.em (i = j) with h | h
  · subst h
    rcases Decidable.em (i < l.length) with hl | hl
    · simp [List.getD_eq_getElem?_getD, List.getElem?_set, hl]
    · have hn : l[i]? = none := by
        rw [List.getElem?_eq_none_iff]; omega
      simp [List.getD_eq_getElem?_getD, List.getElem?_set, hl, hn]
  · simp [List.getD_eq_getElem?_getD, List.getElem?_set, h]

theorem sameBase_refl (p : Pendulum R) : sameBase p p :=
  ⟨rfl, rfl, rfl, rfl, rfl, rfl⟩

theorem sameBase_trans {p q r : Pendulum R} (h1 : sameBase p q) (h2 : sameBase q r) :
    sameBase p r := by
  obtain ⟨a1, a2, a3, a4, a5, a6⟩ := h1
  obtain ⟨b1, b2, b3, b4, b5, b6⟩ := h2
  exact ⟨a1.trans b1, a2.trans b2, a3.trans b3, a4.trans b4, a5.trans b5, a6.trans b6⟩

/-! ## Claim C1 (Reset Controller, manual reset vs suppress) -/

/-- Counterexample to claim C1: in the `Running` state
(`initiatedReset = 0`), with the manual-reset key pressed and the
suppress-reset key held (`resetKey = true`, `continueKey = true`),
threshold 10, fade 2, time 5 and divergence 0, `ResetStep` leaves the
state unchanged — still `Running` — whereas the claim requires a
transition to `ResetArmed` (which would set `initiatedReset` to
`now + fade = 5 + 2 ≠ 0`).  The guard in `GameUpdate` is
`!continueKey && (resetKey || diverged)`, so holding suppress-reset
blocks the manual trigger too. -/
theorem manual_reset_suppressed_at_concrete_input :
    ResetStep (10 : ℝ) 2 5 0 true true ⟨0, 0⟩ = ⟨0, 0⟩ ∧ (5 : ℝ) + 2 ≠ 0 := by
  constructor
  · simp [ResetStep]
  · norm_num

/-- Amended claim C1: in the `Running` state the controller arms a reset
exactly when the suppress-reset key is *not* held and either the
manual-reset key is pressed or the divergence exceeds the threshold;
holding suppress-reset blocks the manual trigger as well as the automatic
one. -/
theorem running_step_requires_suppress_released (th fade now div : ℝ)
    (resetKey continueKey : Bool) (st : ResetState ℝ)
    (h : st.initiatedReset = 0) :
    ResetStep th fade now div resetKey continueKey st =
      if ¬ continueKey ∧ (resetKey ∨ th < div) then
        { st with initiatedReset := now + fade }
      else st := by
  simp [ResetStep, h]

theorem running_step_requires_suppress_released_witness :
    ((⟨0, 0⟩ : ResetState ℝ).initiatedReset = 0) ∧
      ResetStep (10 : ℝ) 2 5 0 true false ⟨0, 0⟩ =
        (if ¬ (false : Bool) ∧ ((true : Bool) ∨ (10 : ℝ) < 0) then
          { (⟨0, 0⟩ : ResetState ℝ) with initiatedReset := 5 + 2 }
        else ⟨0, 0⟩) :=
  ⟨rfl, running_step_requires_suppress_released 10 2 5 0 true false ⟨0, 0⟩ rfl⟩

/-! ## Claim C3 (single-segment integration formulas) -/

/-- Claim C3, confirmed: for a one-segment chain, one tick sets
`angularAcceleration = -(g/l) * sin(angle_before)`, then *sets* (does not
accumulate) `angularVelocity = angularAcceleration * dt`, then
`angle = angle_before + angularVelocity * dt`. -/
theorem single_segment_tick_formulas (g dt : ℝ) (p : Pendulum ℝ)
    (traj : List (Vec2 ℝ)) (idx : ℕ) :
    ((Update Real.sin Real.cos g dt ⟨[p], traj, idx⟩).pendulums.getD 0
        defPendulum).angularAcceleration = -(g / p.length) * Real.sin p.angle ∧
    ((Update Real.sin Real.cos g dt ⟨[p], traj, idx⟩).pendulums.getD 0
        defPendulum).angularVelocity = -(g / p.length) * Real.sin p.angle * dt ∧
    ((Update Real.sin Real.cos g dt ⟨[p], traj, idx⟩).pendulums.getD 0
        defPendulum).angle =
      p.angle + -(g / p.length) * Real.sin p.angle * dt * dt := by
  refine ⟨?_, ?_, ?_⟩ <;> simp [Update] <;> ring

/-! ## Claim C2 (trajectory write on every tick) -/

/-- Counterexample to claim C2: a one-segment chain with a two-slot
trajectory buffer.  `JoinedPendulum::Update` returns from the `n == 1`
branch before the trajectory write, so after one tick the buffer is
untouched and the cursor is still `0`, whereas the claim requires the
cursor to advance to `(0 + 1) % 2 ≠ 0`. -/
theorem single_segment_tick_skips_trajectory_write :
    (Update Real.sin Real.cos 1 1
        ⟨[{ defPendulum with length := 1 }], [vzero, vzero], 0⟩).trajectories
      = [vzero, vzero] ∧
    (Update Real.sin Real.cos 1 1
        ⟨[{ defPendulum with length := 1 }], [vzero, vzero], 0⟩).trajectoryIndex
      = 0 ∧
    (0 + 1) % 2 ≠ 0 := by
  refine ⟨?_, ?_, by decide⟩ <;> simp [Update]

/-! ## Multi-segment integration: loop characterization lemmas -/

theorem length_accelStep (sin cos : R → R) (g : R) (ps : List (Pendulum R)) (i : Nat) :
    (accelStep sin cos g ps i).length = ps.length := by
  simp [accelStep]

theorem length_accelLoop (sin cos : R → R) (g : R) (ps : List (Pendulum R)) (k : Nat) :
    (accelLoop sin cos g ps k).length = ps.length := by
  induction k with
  | zero => rfl
  | succ k ih => rw [accelLoop, length_accelStep, ih]

theorem length_moveStep (sin cos : R → R) (dt : R) (ps : List (Pendulum R)) (i : Nat) :
    (moveStep sin cos dt ps i).length = ps.length := by
  simp [moveStep]

theorem length_moveLoop (sin cos : R → R) (dt : R) (ps : List (Pendulum R)) (k : Nat) :
    (moveLoop sin cos dt ps k).length = ps.length := by
  induction k with
  | zero => rfl
  | succ k ih => rw [moveLoop, length_moveStep, ih]

theorem accelStep_base (sin cos : R → R) (g : R) (ps : List (Pendulum R)) (i j : Nat) :
    sameBase ((accelStep sin cos g ps i).getD j defPendulum) (ps.getD j defPendulum) := by
  unfold accelStep
  rw [getD_set, getD_set]
  split_ifs with h1 h2
  · obtain ⟨rfl, -⟩ := h1
    exact ⟨rfl, rfl, rfl, rfl, rfl, rfl⟩
  · obtain ⟨rfl, -⟩ := h2
    exact ⟨rfl, rfl, rfl, rfl, rfl, rfl⟩
  · exact sameBase_refl _

theorem accelLoop_base (sin cos : R → R) (g : R) (ps : List (Pendulum R)) (k j : Nat) :
    sameBase ((accelLoop sin cos g ps k).getD j defPendulum) (ps.getD j defPendulum) := by
  induction k with
  | zero => exact sameBase_refl _
  | succ k ih =>
    exact sameBase_trans (accelStep_base sin cos g (accelLoop sin cos g ps k) k j) ih

theorem pairAccFirst_of_base (sin cos : R → R) (g : R)
    (S ps : List (Pendulum R)) (j : Nat)
    (h : ∀ m, sameBase (S.getD m defPendulum) (ps.getD m defPendulum)) :
    pairAccFirst sin cos g S j = pairAccFirst sin cos g ps j := by
  obtain ⟨-, -, hl1, hm1, ha1, hw1⟩ := h j
  obtain ⟨-, -, hl2, hm2, ha2, hw2⟩ := h (j + 1)
  simp only [pairAccFirst, hl1, hm1, ha1, hw1, hl2, hm2, ha2, hw2]

theorem pairAccSecond_of_base (sin cos : R → R) (g : R)
    (S ps : List (Pendulum R)) (j : Nat)
    (h : ∀ m, sameBase (S.getD m defPendulum) (ps.getD m defPendulum)) :
    pairAccSecond sin cos g S j = pairAccSecond sin cos g ps j := by
  obtain ⟨-, -, hl1, hm1, ha1, hw1⟩ := h j
  obtain ⟨-, -, hl2, hm2, ha2, hw2⟩ := h (j + 1)
  simp only [pairAccSecond, hl1, hm1, ha1, hw1, hl2, hm2, ha2, hw2]

/-- After the acceleration loop has processed pairs `0, ..., k-1`, position
`j` holds the first-body acceleration of pair `j` if `j < k`, the
second-body acceleration of pair `k-1` if `j = k > 0`, and its original
acceleration otherwise — all evaluated on the pre-tick snapshot `ps`. -/
theorem accelLoop_acc (sin cos : R → R) (g : R) (ps : List (Pendulum R))
    (k : Nat) (hk : k + 1 ≤ ps.length) (j : Nat) :
    ((accelLoop sin cos g ps k).getD j defPendulum).angularAcceleration =
      if j < k then pairAccFirst sin cos g ps j
      else if j = k ∧ 0 < k then pairAccSecond sin cos g ps (k - 1)
      else (ps.getD j defPendulum).angularAcceleration := by
  induction k with
  | zero => simp [accelLoop]
  | succ k ih =>
    have hk' : k + 1 ≤ ps.length := by omega
    have hlen : (accelLoop sin cos g ps k).length = ps.length :=
      length_accelLoop sin cos g ps k
    have hbase := accelLoop_base sin cos g ps k
    have hA := pairAccFirst_of_base sin cos g (accelLoop sin cos g ps k) ps k hbase
    have hB := pairAccSecond_of_base sin cos g (accelLoop sin cos g ps k) ps k hbase
    rw [accelLoop]
    unfold accelStep
    rw [getD_set, getD_set]
    by_cases h1 : j = k + 1
    · rw [if_pos ⟨h1.symm, by rw [List.length_set, hlen]; omega⟩]
      show pairAccSecond sin cos g (accelLoop sin cos g ps k) k = _
      rw [hB, if_neg (by omega), if_pos ⟨h1, by omega⟩]
      simp
    · rw [if_neg (by intro hc; exact h1 hc.1.symm)]
      by_cases h2 : j = k
      · rw [if_pos ⟨h2.symm, by rw [hlen]; omega⟩]
        show pairAccFirst sin cos g (accelLoop sin cos g ps k) k = _
        rw [hA, if_pos (by omega), h2]
      · rw [if_neg (by intro hc; exact h2 hc.1.symm)]
        rw [ih hk']
        split_ifs <;> first | rfl | omega

/-- Positions the angle/position loop has not reached yet are untouched. -/
theorem moveLoop_getD_of_ge (sin cos : R → R) (dt : R) (ps : List (Pendulum R))
    (k j : Nat) (hj : k ≤ j) :
    (moveLoop sin cos dt ps k).getD j defPendulum = ps.getD j defPendulum := by
  induction k with
  | zero => rfl
  | succ k ih =>
    rw [moveLoop]
    unfold moveStep
    rw [getD_set]
    rw [if_neg (by intro h; omega)]
    exact ih (by omega)

/-- After the angle/position loop has processed indices `0, ..., k-1`,
position `j < k` carries the accumulated velocity
`w + a * dt`, the advanced angle `angle + (w + a * dt) * dt`, and an
unchanged acceleration, where `w`, `a`, `angle` are the fields position `j`
had when the loop started. -/
theorem moveLoop_fields (sin cos : R → R) (dt : R) (ps : List (Pendulum R))
    (k : Nat) (hk : k ≤ ps.length) (j : Nat) (hj : j < k) :
    ((moveLoop sin cos dt ps k).getD j defPendulum).angularVelocity =
      (ps.getD j defPendulum).angularVelocity +
        (ps.getD j defPendulum).angularAcceleration * dt ∧
    ((moveLoop sin cos dt ps k).getD j defPendulum).angle =
      (ps.getD j defPendulum).angle +
        ((ps.getD j defPendulum).angularVelocity +
          (ps.getD j defPendulum).angularAcceleration * dt) * dt ∧
    ((moveLoop sin cos dt ps k).getD j defPendulum).angularAcceleration =
      (ps.getD j defPendulum).angularAcceleration := by
  induction k with
  | zero => omega
  | succ k ih =>
    have hlen : (moveLoop sin cos dt ps k).length = ps.length :=
      length_moveLoop sin cos dt ps k
    rw [moveLoop]
    unfold moveStep
    rw [getD_set]
    rcases Decidable.em (j = k) with rfl | hne
    · rw [if_pos ⟨rfl, by omega⟩]
      have hst : (moveLoop sin cos dt ps j).getD j defPendulum = ps.getD j defPendulum :=
        moveLoop_getD_of_ge sin cos dt ps j j (le_refl j)
      rw [hst]
      exact ⟨rfl, rfl, rfl⟩
    · rw [if_neg (by intro h; exact hne h.1.symm)]
      exact ih (by omega) (by omega)

/-- Unfolding of `Update` on a chain with at least two segments. -/
theorem Update_multi (sin cos : R → R) (g dt : R) (jp : JoinedPendulum R)
    (h2 : 2 ≤ jp.pendulums.length) :
    Update sin cos g dt jp =
      { pendulums := moveLoop sin cos dt
          (accelLoop sin cos g jp.pendulums (jp.pendulums.length - 1))
          jp.pendulums.length,
        trajectories := jp.trajectories.set jp.trajectoryIndex
          ((moveLoop sin cos dt
              (accelLoop sin cos g jp.pendulums (jp.pendulums.length - 1))
              jp.pendulums.length).getD (jp.pendulums.length - 1) defPendulum).position,
        trajectoryIndex := (jp.trajectoryIndex + 1) % jp.trajectories.length } := by
  simp only [Update]
  rw [if_neg (by omega), if_neg (by omega)]

/-! ## Claim C4 (multi-segment tick: snapshot accelerations, then integrate) -/

/-- Claim C4, confirmed: on a chain with `n ≥ 2` segments one tick gives
every segment `i` the angular acceleration computed by the pairwise
closed-form formulas from the *pre-tick* snapshot (first-body value of
pair `(i, i+1)` for `i < n-1`, second-body value of pair `(n-2, n-1)` for
the last segment), and only then performs
`angularVelocity += angularAcceleration * dt; angle += angularVelocity * dt`
— the velocity accumulates, and no acceleration formula reads an angle or
velocity updated in the same tick. -/
theorem multi_segment_tick_snapshot_integration (g dt : ℝ) (jp : JoinedPendulum ℝ)
    (h2 : 2 ≤ jp.pendulums.length) (i : ℕ) (hi : i < jp.pendulums.length) :
    ((Update Real.sin Real.cos g dt jp).pendulums.getD i defPendulum).angularAcceleration
        = (if i + 1 < jp.pendulums.length
           then pairAccFirst Real.sin Real.cos g jp.pendulums i
           else pairAccSecond Real.sin Real.cos g jp.pendulums (jp.pendulums.length - 2)) ∧
    ((Update Real.sin Real.cos g dt jp).pendulums.getD i defPendulum).angularVelocity
        = (jp.pendulums.getD i defPendulum).angularVelocity
          + (if i + 1 < jp.pendulums.length
             then pairAccFirst Real.sin Real.cos g jp.pendulums i
             else pairAccSecond Real.sin Real.cos g jp.pendulums (jp.pendulums.length - 2)) * dt ∧
    ((Update Real.sin Real.cos g dt jp).pendulums.getD i defPendulum).angle
        = (jp.pendulums.getD i defPendulum).angle
          + ((jp.pendulums.getD i defPendulum).angularVelocity
            + (if i + 1 < jp.pendulums.length
               then pairAccFirst Real.sin Real.cos g jp.pendulums i
               else pairAccSecond Real.sin Real.cos g jp.pendulums (jp.pendulums.length - 2)) * dt) * dt := by
  have hlenA : (accelLoop Real.sin Real.cos g jp.pendulums
      (jp.pendulums.length - 1)).length = jp.pendulums.length :=
    length_accelLoop Real.sin Real.cos g jp.pendulums (jp.pendulums.length - 1)
  have hmv := moveLoop_fields Real.sin Real.cos dt
    (accelLoop Real.sin Real.cos g jp.pendulums (jp.pendulums.length - 1))
    jp.pendulums.length (by rw [hlenA]) i hi
  have hacc := accelLoop_acc Real.sin Real.cos g jp.pendulums
    (jp.pendulums.length - 1) (by omega) i
  obtain ⟨-, -, -, -, ha, hw⟩ :=
    accelLoop_base Real.sin Real.cos g jp.pendulums (jp.pendulums.length - 1) i
  obtain ⟨hv, hA, haccp⟩ := hmv
  have hiff : ∀ x : ℝ,
      (if i < jp.pendulums.length - 1 then pairAccFirst Real.sin Real.cos g jp.pendulums i
       else if i = jp.pendulums.length - 1 ∧ 0 < jp.pendulums.length - 1
       then pairAccSecond Real.sin Real.cos g jp.pendulums (jp.pendulums.length - 1 - 1)
       else x)
      = (if i + 1 < jp.pendulums.length
         then pairAccFirst Real.sin Real.cos g jp.pendulums i
         else pairAccSecond Real.sin Real.cos g jp.pendulums (jp.pendulums.length - 2)) := by
    intro x
    by_cases hc : i + 1 < jp.pendulums.length
    · rw [if_pos (by omega), if_pos hc]
    · have hsub : jp.pendulums.length - 1 - 1 = jp.pendulums.length - 2 := by omega
      rw [if_neg (by omega), if_pos ⟨by omega, by omega⟩, if_neg hc, hsub]
  rw [Update_multi Real.sin Real.cos g dt jp h2]
  refine ⟨?_, ?_, ?_⟩
  · rw [haccp, hacc, hiff]
  · rw [hv, hw, hacc, hiff]
  · rw [hA, ha, hw, hacc, hiff]

theorem multi_segment_tick_snapshot_integration_witness :
    2 ≤ (⟨[defPendulum, defPendulum], [], 0⟩ : JoinedPendulum ℝ).pendulums.length ∧
    0 < (⟨[defPendulum, defPendulum], [], 0⟩ : JoinedPendulum ℝ).pendulums.length ∧
    (((Update Real.sin Real.cos 1 1
        (⟨[defPendulum, defPendulum], [], 0⟩ : JoinedPendulum ℝ)).pendulums.getD 0
          defPendulum).angularAcceleration
        = (if 0 + 1 < (⟨[defPendulum, defPendulum], [], 0⟩ : JoinedPendulum ℝ).pendulums.length
           then pairAccFirst Real.sin Real.cos 1
             (⟨[defPendulum, defPendulum], [], 0⟩ : JoinedPendulum ℝ).pendulums 0
           else pairAccSecond Real.sin Real.cos 1
             (⟨[defPendulum, defPendulum], [], 0⟩ : JoinedPendulum ℝ).pendulums
             ((⟨[defPendulum, defPendulum], [], 0⟩ : JoinedPendulum ℝ).pendulums.length - 2)) ∧
      ((Update Real.sin Real.cos 1 1
        (⟨[defPendulum, defPendulum], [], 0⟩ : JoinedPendulum ℝ)).pendulums.getD 0
          defPendulum).angularVelocity
        = ((⟨[defPendulum, defPendulum], [], 0⟩ : JoinedPendulum ℝ).pendulums.getD 0
            defPendulum).angularVelocity
          + (if 0 + 1 < (⟨[defPendulum, defPendulum], [], 0⟩ : JoinedPendulum ℝ).pendulums.length
             then pairAccFirst Real.sin Real.cos 1
               (⟨[defPendulum, defPendulum], [], 0⟩ : JoinedPendulum ℝ).pendulums 0
             else pairAccSecond Real.sin Real.cos 1
               (⟨[defPendulum, defPendulum], [], 0⟩ : JoinedPendulum ℝ).pendulums
               ((⟨[defPendulum, defPendulum], [], 0⟩ : JoinedPendulum ℝ).pendulums.length - 2)) * 1 ∧
      ((Update Real.sin Real.cos 1 1
        (⟨[defPendulum, defPendulum], [], 0⟩ : JoinedPendulum ℝ)).pendulums.getD 0
          defPendulum).angle
        = ((⟨[defPendulum, defPendulum], [], 0⟩ : JoinedPendulum ℝ).pendulums.getD 0
            defPendulum).angle
          + (((⟨[defPendulum, defPendulum], [], 0⟩ : JoinedPendulum ℝ).pendulums.getD 0
              defPendulum).angularVelocity
            + (if 0 + 1 < (⟨[defPendulum, defPendulum], [], 0⟩ : JoinedPendulum ℝ).pendulums.length
               then pairAccFirst Real.sin Real.cos 1
                 (⟨[defPendulum, defPendulum], [], 0⟩ : JoinedPendulum ℝ).pendulums 0
               else pairAccSecond Real.sin Real.cos 1
                 (⟨[defPendulum, defPendulum], [], 0⟩ : JoinedPendulum ℝ).pendulums
                 ((⟨[defPendulum, defPendulum], [], 0⟩ : JoinedPendulum ℝ).pendulums.length - 2)) * 1) * 1) :=
  ⟨by norm_num, by norm_num,
    multi_segment_tick_snapshot_integration 1 1 ⟨[defPendulum, defPendulum], [], 0⟩
      (by norm_num) 0 (by norm_num)⟩

/-! ## Claim C10 (interior accelerations written twice, first-body value wins) -/

/-- Claim C10, confirmed: during the acceleration pass an interior segment
`i` (with `1 ≤ i` and `i + 1 ≤ n - 1`) first receives the second-body
acceleration of pair `(i-1, i)` (visible immediately after pair `i-1` is
processed), which is then overwritten with the first-body acceleration of
pair `(i, i+1)`; the first-body value survives the whole pass and is the
one the velocity integration uses, while the last segment keeps the
second-body value of pair `(n-2, n-1)`. -/
theorem interior_acceleration_double_write (g dt : ℝ) (jp : JoinedPendulum ℝ)
    (h3 : 3 ≤ jp.pendulums.length) (i : ℕ) (hlo : 1 ≤ i)
    (hhi : i + 1 ≤ jp.pendulums.length - 1) :
    ((accelLoop Real.sin Real.cos g jp.pendulums i).getD i
        defPendulum).angularAcceleration
      = pairAccSecond Real.sin Real.cos g jp.pendulums (i - 1) ∧
    ((accelLoop Real.sin Real.cos g jp.pendulums (i + 1)).getD i
        defPendulum).angularAcceleration
      = pairAccFirst Real.sin Real.cos g jp.pendulums i ∧
    ((accelLoop Real.sin Real.cos g jp.pendulums (jp.pendulums.length - 1)).getD i
        defPendulum).angularAcceleration
      = pairAccFirst Real.sin Real.cos g jp.pendulums i ∧
    ((Update Real.sin Real.cos g dt jp).pendulums.getD i
        defPendulum).angularVelocity
      = (jp.pendulums.getD i defPendulum).angularVelocity
        + pairAccFirst Real.sin Real.cos g jp.pendulums i * dt ∧
    ((Update Real.sin Real.cos g dt jp).pendulums.getD (jp.pendulums.length - 1)
        defPendulum).angularAcceleration
      = pairAccSecond Real.sin Real.cos g jp.pendulums (jp.pendulums.length - 2) := by
  have hlenA : (accelLoop Real.sin Real.cos g jp.pendulums
      (jp.pendulums.length - 1)).length = jp.pendulums.length :=
    length_accelLoop Real.sin Real.cos g jp.pendulums (jp.pendulums.length - 1)
  refine ⟨?_, ?_, ?_, ?_, ?_⟩
  · rw [accelLoop_acc Real.sin Real.cos g jp.pendulums i (by omega) i,
      if_neg (by omega), if_pos ⟨rfl, by omega⟩]
  · rw [accelLoop_acc Real.sin Real.cos g jp.pendulums (i + 1) (by omega) i,
      if_pos (by omega)]
  · rw [accelLoop_acc Real.sin Real.cos g jp.pendulums
      (jp.pendulums.length - 1) (by omega) i, if_pos (by omega)]
  · obtain ⟨hv, -, -⟩ := moveLoop_fields Real.sin Real.cos dt
      (accelLoop Real.sin Real.cos g jp.pendulums (jp.pendulums.length - 1))
      jp.pendulums.length (by rw [hlenA]) i (by omega)
    obtain ⟨-, -, -, -, -, hw⟩ :=
      accelLoop_base Real.sin Real.cos g jp.pendulums (jp.pendulums.length - 1) i
    rw [Update_multi Real.sin Real.cos g dt jp (by omega), hv, hw,
      accelLoop_acc Real.sin Real.cos g jp.pendulums
        (jp.pendulums.length - 1) (by omega) i, if_pos (by omega)]
  · obtain ⟨-, -, haccp⟩ := moveLoop_fields Real.sin Real.cos dt
      (accelLoop Real.sin Real.cos g jp.pendulums (jp.pendulums.length - 1))
      jp.pendulums.length (by rw [hlenA]) (jp.pendulums.length - 1) (by omega)
    have hsub : jp.pendulums.length - 1 - 1 = jp.pendulums.length - 2 := by omega
    rw [Update_multi Real.sin Real.cos g dt jp (by omega), haccp,
      accelLoop_acc Real.sin Real.cos g jp.pendulums
        (jp.pendulums.length - 1) (by omega) (jp.pendulums.length - 1),
      if_neg (by omega), if_pos ⟨rfl, by omega⟩, hsub]

theorem interior_acceleration_double_write_witness :
    3 ≤ (⟨[defPendulum, defPendulum, defPendulum], [], 0⟩ : JoinedPendulum ℝ).pendulums.length ∧
    (1 : ℕ) ≤ 1 ∧
    1 + 1 ≤ (⟨[defPendulum, defPendulum, defPendulum], [], 0⟩ : JoinedPendulum ℝ).pendulums.length - 1 ∧
    (((accelLoop Real.sin Real.cos 1
        (⟨[defPendulum, defPendulum, defPendulum], [], 0⟩ : JoinedPendulum ℝ).pendulums 1).getD 1
          defPendulum).angularAcceleration
      = pairAccSecond Real.sin Real.cos 1
          (⟨[defPendulum, defPendulum, defPendulum], [], 0⟩ : JoinedPendulum ℝ).pendulums (1 - 1) ∧
    ((accelLoop Real.sin Real.cos 1
        (⟨[defPendulum, defPendulum, defPendulum], [], 0⟩ : JoinedPendulum ℝ).pendulums (1 + 1)).getD 1
          defPendulum).angularAcceleration
      = pairAccFirst Real.sin Real.cos 1
          (⟨[defPendulum, defPendulum, defPendulum], [], 0⟩ : JoinedPendulum ℝ).pendulums 1 ∧
    ((accelLoop Real.sin Real.cos 1
        (⟨[defPendulum, defPendulum, defPendulum], [], 0⟩ : JoinedPendulum ℝ).pendulums
        ((⟨[defPendulum, defPendulum, defPendulum], [], 0⟩ : JoinedPendulum ℝ).pendulums.length - 1)).getD 1
          defPendulum).angularAcceleration
      = pairAccFirst Real.sin Real.cos 1
          (⟨[defPendulum, defPendulum, defPendulum], [], 0⟩ : JoinedPendulum ℝ).pendulums 1 ∧
    ((Update Real.sin Real.cos 1 1
        (⟨[defPendulum, defPendulum, defPendulum], [], 0⟩ : JoinedPendulum ℝ)).pendulums.getD 1
          defPendulum).angularVelocity
      = ((⟨[defPendulum, defPendulum, defPendulum], [], 0⟩ : JoinedPendulum ℝ).pendulums.getD 1
          defPendulum).angularVelocity
        + pairAccFirst Real.sin Real.cos 1
            (⟨[defPendulum, defPendulum, defPendulum], [], 0⟩ : JoinedPendulum ℝ).pendulums 1 * 1 ∧
    ((Update Real.sin Real.cos 1 1
        (⟨[defPendulum, defPendulum, defPendulum], [], 0⟩ : JoinedPendulum ℝ)).pendulums.getD
        ((⟨[defPendulum, defPendulum, defPendulum], [], 0⟩ : JoinedPendulum ℝ).pendulums.length - 1)
          defPendulum).angularAcceleration
      = pairAccSecond Real.sin Real.cos 1
          (⟨[defPendulum, defPendulum, defPendulum], [], 0⟩ : JoinedPendulum ℝ).pendulums
          ((⟨[defPendulum, defPendulum, defPendulum], [], 0⟩ : JoinedPendulum ℝ).pendulums.length - 2)) :=
  ⟨by norm_num, le_refl 1, by norm_num,
    interior_acceleration_double_write 1 1 ⟨[defPendulum, defPendulum, defPendulum], [], 0⟩
      (by norm_num) 1 (le_refl 1) (by norm_num)⟩

/-- Amended claim C2: on every tick of a chain with at least two segments,
after the angles and positions are updated the last segment's position is
written into the trajectory buffer at the current cursor slot and the
cursor advances by one modulo the buffer capacity.  (For single-segment
chains `Update` returns before the trajectory write — see the
counterexample for the original claim.) -/
theorem multi_segment_tick_writes_trajectory (g dt : ℝ) (jp : JoinedPendulum ℝ)
    (h2 : 2 ≤ jp.pendulums.length) :
    (Update Real.sin Real.cos g dt jp).trajectories =
      jp.trajectories.set jp.trajectoryIndex
        (((Update Real.sin Real.cos g dt jp).pendulums.getD
            (jp.pendulums.length - 1) defPendulum).position) ∧
    (Update Real.sin Real.cos g dt jp).trajectoryIndex =
      (jp.trajectoryIndex + 1) % jp.trajectories.length := by
  rw [Update_multi Real.sin Real.cos g dt jp h2]
  exact ⟨rfl, rfl⟩

theorem multi_segment_tick_writes_trajectory_witness :
    2 ≤ (⟨[defPendulum, defPendulum], [vzero], 0⟩ : JoinedPendulum ℝ).pendulums.length ∧
    ((Update Real.sin Real.cos 1 1
        (⟨[defPendulum, defPendulum], [vzero], 0⟩ : JoinedPendulum ℝ)).trajectories =
      (⟨[defPendulum, defPendulum], [vzero], 0⟩ : JoinedPendulum ℝ).trajectories.set
        (⟨[defPendulum, defPendulum], [vzero], 0⟩ : JoinedPendulum ℝ).trajectoryIndex
        (((Update Real.sin Real.cos 1 1
            (⟨[defPendulum, defPendulum], [vzero], 0⟩ : JoinedPendulum ℝ)).pendulums.getD
            ((⟨[defPendulum, defPendulum], [vzero], 0⟩ : JoinedPendulum ℝ).pendulums.length - 1)
            defPendulum).position) ∧
    (Update Real.sin Real.cos 1 1
        (⟨[defPendulum, defPendulum], [vzero], 0⟩ : JoinedPendulum ℝ)).trajectoryIndex =
      ((⟨[defPendulum, defPendulum], [vzero], 0⟩ : JoinedPendulum ℝ).trajectoryIndex + 1) %
        (⟨[defPendulum, defPendulum], [vzero], 0⟩ : JoinedPendulum ℝ).trajectories.length) :=
  ⟨by norm_num,
    multi_segment_tick_writes_trajectory 1 1 ⟨[defPendulum, defPendulum], [vzero], 0⟩
      (by norm_num)⟩

/-! ## Ring-buffer evolution under iterated ticks -/

theorem length_pendulums_Update (sin cos : R → R) (g dt : R) (jp : JoinedPendulum R) :
    (Update sin cos g dt jp).pendulums.length = jp.pendulums.length := by
  simp only [Update]
  split_ifs with h0 h1
  · rfl
  · simp
  · rw [length_moveLoop, length_accelLoop]

theorem length_trajectories_Update (sin cos : R → R) (g dt : R) (jp : JoinedPendulum R) :
    (Update sin cos g dt jp).trajectories.length = jp.trajectories.length := by
  simp only [Update]
  split_ifs with h0 h1
  · rfl
  · rfl
  · simp

theorem trajectoryIndex_Update (sin cos : R → R) (g dt : R) (jp : JoinedPendulum R)
    (h2 : 2 ≤ jp.pendulums.length) :
    (Update sin cos g dt jp).trajectoryIndex =
      (jp.trajectoryIndex + 1) % jp.trajectories.length := by
  rw [Update_multi sin cos g dt jp h2]

theorem traj_getD_Update_ne (sin cos : R → R) (g dt : R) (jp : JoinedPendulum R)
    (h2 : 2 ≤ jp.pendulums.length) (s : Nat) (hs : s ≠ jp.trajectoryIndex) :
    (Update sin cos g dt jp).trajectories.getD s vzero =
      jp.trajectories.getD s vzero := by
  rw [Update_multi sin cos g dt jp h2]
  show (jp.trajectories.set jp.trajectoryIndex _).getD s vzero = _
  rw [getD_set, if_neg (by intro hc; exact hs hc.1.symm)]

theorem traj_getD_Update_eq (sin cos : R → R) (g dt : R) (jp : JoinedPendulum R)
    (h2 : 2 ≤ jp.pendulums.length)
    (hlt : jp.trajectoryIndex < jp.trajectories.length) :
    (Update sin cos g dt jp).trajectories.getD jp.trajectoryIndex vzero =
      ((Update sin cos g dt jp).pendulums.getD
        (jp.pendulums.length - 1) defPendulum).position := by
  rw [Update_multi sin cos g dt jp h2]
  show (jp.trajectories.set jp.trajectoryIndex _).getD jp.trajectoryIndex vzero = _
  rw [getD_set, if_pos ⟨rfl, hlt⟩]

theorem iterate_pendulums_length (sin cos : R → R) (g dt : R) (jp : JoinedPendulum R)
    (t : Nat) :
    ((Update sin cos g dt)^[t] jp).pendulums.length = jp.pendulums.length := by
  induction t with
  | zero => rfl
  | succ t ih =>
    rw [Function.iterate_succ_apply', length_pendulums_Update, ih]

theorem iterate_trajectories_length (sin cos : R → R) (g dt : R) (jp : JoinedPendulum R)
    (t : Nat) :
    ((Update sin cos g dt)^[t] jp).trajectories.length = jp.trajectories.length := by
  induction t with
  | zero => rfl
  | succ t ih =>
    rw [Function.iterate_succ_apply', length_trajectories_Update, ih]

theorem iterate_trajectoryIndex (sin cos : R → R) (g dt : R) (jp : JoinedPendulum R)
    (h2 : 2 ≤ jp.pendulums.length)
    (hc0 : jp.trajectoryIndex < jp.trajectories.length) (t : Nat) :
    ((Update sin cos g dt)^[t] jp).trajectoryIndex =
      (jp.trajectoryIndex + t) % jp.trajectories.length := by
  induction t with
  | zero =>
    simp [Nat.mod_eq_of_lt hc0]
  | succ t ih =>
    have h2t : 2 ≤ ((Update sin cos g dt)^[t] jp).pendulums.length := by
      rw [iterate_pendulums_length]; exact h2
    have hidx := trajectoryIndex_Update sin cos g dt ((Update sin cos g dt)^[t] jp) h2t
    rw [Function.iterate_succ_apply', hidx, iterate_trajectories_length, ih,
      Nat.mod_add_mod, Nat.add_assoc]

/-- Iterated ticks leave a buffer slot unchanged as long as the cursor walk
never lands on it. -/
theorem iterate_traj_stable (sin cos : R → R) (g dt : R) :
    ∀ (m : Nat) (jp : JoinedPendulum R), 2 ≤ jp.pendulums.length →
      jp.trajectoryIndex < jp.trajectories.length →
      ∀ s : Nat, s < jp.trajectories.length →
        (∀ j, j < m → (jp.trajectoryIndex + j) % jp.trajectories.length ≠ s) →
        ((Update sin cos g dt)^[m] jp).trajectories.getD s vzero =
          jp.trajectories.getD s vzero := by
  intro m
  induction m with
  | zero => intro jp _ _ s _ _; rfl
  | succ m ih =>
    intro jp h2 hc s hs havoid
    have hcap : 0 < jp.trajectories.length := by omega
    have hs0 : s ≠ jp.trajectoryIndex := by
      have := havoid 0 (by omega)
      rw [Nat.add_zero, Nat.mod_eq_of_lt hc] at this
      exact fun hcon => this hcon.symm
    have hstep := traj_getD_Update_ne sin cos g dt jp h2 s hs0
    have h2u : 2 ≤ (Update sin cos g dt jp).pendulums.length := by
      rw [length_pendulums_Update]; exact h2
    have hcu : (Update sin cos g dt jp).trajectoryIndex <
        (Update sin cos g dt jp).trajectories.length := by
      rw [length_trajectories_Update, trajectoryIndex_Update sin cos g dt jp h2]
      exact Nat.mod_lt _ hcap
    have hsu : s < (Update sin cos g dt jp).trajectories.length := by
      rw [length_trajectories_Update]; exact hs
    have havoidu : ∀ j, j < m →
        ((Update sin cos g dt jp).trajectoryIndex + j) %
          (Update sin cos g dt jp).trajectories.length ≠ s := by
      intro j hj
      rw [length_trajectories_Update, trajectoryIndex_Update sin cos g dt jp h2,
        Nat.mod_add_mod]
      have := havoid (1 + j) (by omega)
      rw [← Nat.add_assoc] at this
      exact this
    rw [Function.iterate_succ_apply, ih (Update sin cos g dt jp) h2u hcu s hsu havoidu,
      hstep]

/-! ## Claim C7 (ring buffer state after capacity+1 ticks) -/

/-- Amended claim C7: for a chain with at least two segments, a trajectory
buffer of capacity `cap ≥ 1` and cursor `0`, after `cap + 1` ticks the
buffer length is still `cap`, the cursor is `1 % cap`, and the oldest
surviving entry — the slot at the cursor, the next to be overwritten — is
the tip recorded at tick `2`, because tick `cap + 1` overwrote slot `0`,
which held the tip recorded at tick `1`.  (The original claim named tick
`1` as the oldest surviving entry while also stating that tick
`cap + 1` overwrites it; the surviving entry is tick `2`'s.) -/
theorem trajectory_oldest_entry_after_wrap (g dt : ℝ) (jp : JoinedPendulum ℝ)
    (h2 : 2 ≤ jp.pendulums.length) (hcap : 1 ≤ jp.trajectories.length)
    (h0 : jp.trajectoryIndex = 0) :
    ((Update Real.sin Real.cos g dt)^[jp.trajectories.length + 1] jp).trajectories.length
      = jp.trajectories.length ∧
    ((Update Real.sin Real.cos g dt)^[jp.trajectories.length + 1] jp).trajectoryIndex
      = 1 % jp.trajectories.length ∧
    ((Update Real.sin Real.cos g dt)^[jp.trajectories.length + 1] jp).trajectories.getD
        (((Update Real.sin Real.cos g dt)^[jp.trajectories.length + 1] jp).trajectoryIndex)
        vzero
      = (((Update Real.sin Real.cos g dt)^[2] jp).pendulums.getD
          (jp.pendulums.length - 1) defPendulum).position := by
  have hcap0 : 0 < jp.trajectories.length := by omega
  have hc0 : jp.trajectoryIndex < jp.trajectories.length := by omega
  have hcur : ∀ t : ℕ,
      ((Update Real.sin Real.cos g dt)^[t] jp).trajectoryIndex =
        t % jp.trajectories.length := by
    intro t
    rw [iterate_trajectoryIndex Real.sin Real.cos g dt jp h2 hc0 t, h0, Nat.zero_add]
  have hcurtop : ((Update Real.sin Real.cos g dt)^[jp.trajectories.length + 1]
      jp).trajectoryIndex = 1 % jp.trajectories.length := by
    rw [hcur, Nat.add_mod_left]
  refine ⟨iterate_trajectories_length Real.sin Real.cos g dt jp _, hcurtop, ?_⟩
  rw [hcurtop]
  have hit2 : (Update Real.sin Real.cos g dt)^[2] jp =
      Update Real.sin Real.cos g dt (Update Real.sin Real.cos g dt jp) := by
    rw [show (2 : ℕ) = 1 + 1 by rfl, Function.iterate_add_apply]
    simp [Function.iterate_one]
  have hsplit : jp.trajectories.length + 1 = (jp.trajectories.length - 1) + 2 := by
    omega
  have h2b : 2 ≤ ((Update Real.sin Real.cos g dt)^[2] jp).pendulums.length := by
    rw [iterate_pendulums_length]; exact h2
  have hcb : ((Update Real.sin Real.cos g dt)^[2] jp).trajectoryIndex <
      ((Update Real.sin Real.cos g dt)^[2] jp).trajectories.length := by
    rw [iterate_trajectories_length, hcur]
    exact Nat.mod_lt _ hcap0
  have hsb : 1 % jp.trajectories.length <
      ((Update Real.sin Real.cos g dt)^[2] jp).trajectories.length := by
    rw [iterate_trajectories_length]
    exact Nat.mod_lt _ hcap0
  have havoid : ∀ j, j < jp.trajectories.length - 1 →
      (((Update Real.sin Real.cos g dt)^[2] jp).trajectoryIndex + j) %
        ((Update Real.sin Real.cos g dt)^[2] jp).trajectories.length
        ≠ 1 % jp.trajectories.length := by
    intro j hj
    rw [iterate_trajectories_length, hcur, Nat.mod_add_mod]
    have hcap2 : 2 ≤ jp.trajectories.length := by omega
    rw [Nat.mod_eq_of_lt (show 1 < jp.trajectories.length by omega)]
    rcases Nat.lt_or_ge (2 + j) jp.trajectories.length with hlt | hge
    · rw [Nat.mod_eq_of_lt hlt]
      omega
    · have heq : 2 + j = jp.trajectories.length := by omega
      rw [heq, Nat.mod_self]
      omega
  have hstable := iterate_traj_stable Real.sin Real.cos g dt
    (jp.trajectories.length - 1) ((Update Real.sin Real.cos g dt)^[2] jp)
    h2b hcb (1 % jp.trajectories.length) hsb havoid
  rw [hsplit, Function.iterate_add_apply, hstable, hit2]
  have hjp1idx : (Update Real.sin Real.cos g dt jp).trajectoryIndex =
      1 % jp.trajectories.length := by
    rw [trajectoryIndex_Update Real.sin Real.cos g dt jp h2, h0, Nat.zero_add]
  have hjp1len : (Update Real.sin Real.cos g dt jp).pendulums.length =
      jp.pendulums.length := length_pendulums_Update Real.sin Real.cos g dt jp
  have hjp1cap : (Update Real.sin Real.cos g dt jp).trajectoryIndex <
      (Update Real.sin Real.cos g dt jp).trajectories.length := by
    rw [hjp1idx, length_trajectories_Update]
    exact Nat.mod_lt _ hcap0
  rw [← hjp1idx,
    traj_getD_Update_eq Real.sin Real.cos g dt (Update Real.sin Real.cos g dt jp)
      (by rw [hjp1len]; exact h2) hjp1cap,
    hjp1len]

/-- Counterexample to claim C7 as stated: a two-segment chain (unit
lengths and masses, angles `0`, velocities `0` and `π`), gravity `0`,
`dt = 1`, trajectory capacity `1`, cursor `0`.  After `capacity + 1 = 2`
ticks the buffer's only (hence oldest) entry is `(0, 2)` — the tip
recorded at tick `2` — while the tip recorded at tick `1` was `(0, 0)`;
tick `1`'s entry was the one overwritten. -/
theorem trajectory_oldest_entry_not_tick_one :
    ((Update Real.sin Real.cos 0 1)^[
        (⟨[⟨vzero, vzero, 1, 1, 0, 0, 0⟩, ⟨vzero, vzero, 1, 1, 0, Real.pi, 0⟩],
          [⟨5, 5⟩], 0⟩ : JoinedPendulum ℝ).trajectories.length + 1]
      (⟨[⟨vzero, vzero, 1, 1, 0, 0, 0⟩, ⟨vzero, vzero, 1, 1, 0, Real.pi, 0⟩],
        [⟨5, 5⟩], 0⟩ : JoinedPendulum ℝ)).trajectories = [⟨0, 2⟩] ∧
    (((Update Real.sin Real.cos 0 1)^[1]
      (⟨[⟨vzero, vzero, 1, 1, 0, 0, 0⟩, ⟨vzero, vzero, 1, 1, 0, Real.pi, 0⟩],
        [⟨5, 5⟩], 0⟩ : JoinedPendulum ℝ)).pendulums.getD 1 defPendulum).position
      = ⟨0, 0⟩ ∧
    (⟨0, 2⟩ : Vec2 ℝ) ≠ ⟨0, 0⟩ := by
  have hstep1 : Update Real.sin Real.cos 0 1
      (⟨[⟨vzero, vzero, 1, 1, 0, 0, 0⟩, ⟨vzero, vzero, 1, 1, 0, Real.pi, 0⟩],
        [⟨5, 5⟩], 0⟩ : JoinedPendulum ℝ) =
      ⟨[⟨⟨0, 1⟩, vzero, 1, 1, 0, 0, 0⟩, ⟨⟨0, 0⟩, vzero, 1, 1, Real.pi, Real.pi, 0⟩],
        [⟨0, 0⟩], 0⟩ := by
    simp only [Update, accelLoop, accelStep, moveLoop, moveStep,
      pairAccFirst, pairAccSecond, accFirst, accSecond, List.getD, List.set,
      List.length_cons, List.length_nil]
    norm_num [Real.sin_zero, Real.cos_zero, Real.sin_pi, Real.cos_pi, vzero]
  have hstep2 : Update Real.sin Real.cos 0 1
      (⟨[⟨⟨0, 1⟩, vzero, 1, 1, 0, 0, 0⟩, ⟨⟨0, 0⟩, vzero, 1, 1, Real.pi, Real.pi, 0⟩],
        [⟨0, 0⟩], 0⟩ : JoinedPendulum ℝ) =
      ⟨[⟨⟨0, 1⟩, vzero, 1, 1, 0, 0, 0⟩,
        ⟨⟨0, 2⟩, vzero, 1, 1, Real.pi + Real.pi, Real.pi, 0⟩],
        [⟨0, 2⟩], 0⟩ := by
    simp only [Update, accelLoop, accelStep, moveLoop, moveStep,
      pairAccFirst, pairAccSecond, accFirst, accSecond, List.getD, List.set,
      List.length_cons, List.length_nil]
    norm_num [Real.sin_zero, Real.cos_zero, Real.sin_pi, Real.cos_pi, Real.sin_neg,
      Real.cos_neg, Real.sin_two_pi, Real.cos_two_pi, Real.sin_add, Real.cos_add,
      vzero]
  refine ⟨?_, ?_, ?_⟩
  · show ((Update Real.sin Real.cos 0 1)^[2]
        (⟨[⟨vzero, vzero, 1, 1, 0, 0, 0⟩, ⟨vzero, vzero, 1, 1, 0, Real.pi, 0⟩],
          [⟨5, 5⟩], 0⟩ : JoinedPendulum ℝ)).trajectories = [⟨0, 2⟩]
    rw [show (2 : ℕ) = 1 + 1 by rfl, Function.iterate_add_apply]
    simp only [Function.iterate_one]
    rw [hstep1, hstep2]
  · simp only [Function.iterate_one]
    rw [hstep1]
    rfl
  · intro hcon
    have : (2 : ℝ) = 0 := congrArg Vec2.y hcon
    norm_num at this

theorem trajectory_oldest_entry_after_wrap_witness :
    2 ≤ (⟨[defPendulum, defPendulum], [vzero], 0⟩ : JoinedPendulum ℝ).pendulums.length ∧
    1 ≤ (⟨[defPendulum, defPendulum], [vzero], 0⟩ : JoinedPendulum ℝ).trajectories.length ∧
    (⟨[defPendulum, defPendulum], [vzero], 0⟩ : JoinedPendulum ℝ).trajectoryIndex = 0 ∧
    (((Update Real.sin Real.cos 1 1)^[
        (⟨[defPendulum, defPendulum], [vzero], 0⟩ : JoinedPendulum ℝ).trajectories.length + 1]
        (⟨[defPendulum, defPendulum], [vzero], 0⟩ : JoinedPendulum ℝ)).trajectories.length
      = (⟨[defPendulum, defPendulum], [vzero], 0⟩ : JoinedPendulum ℝ).trajectories.length ∧
    ((Update Real.sin Real.cos 1 1)^[
        (⟨[defPendulum, defPendulum], [vzero], 0⟩ : JoinedPendulum ℝ).trajectories.length + 1]
        (⟨[defPendulum, defPendulum], [vzero], 0⟩ : JoinedPendulum ℝ)).trajectoryIndex
      = 1 % (⟨[defPendulum, defPendulum], [vzero], 0⟩ : JoinedPendulum ℝ).trajectories.length ∧
    ((Update Real.sin Real.cos 1 1)^[
        (⟨[defPendulum, defPendulum], [vzero], 0⟩ : JoinedPendulum ℝ).trajectories.length + 1]
        (⟨[defPendulum, defPendulum], [vzero], 0⟩ : JoinedPendulum ℝ)).trajectories.getD
        (((Update Real.sin Real.cos 1 1)^[
            (⟨[defPendulum, defPendulum], [vzero], 0⟩ : JoinedPendulum ℝ).trajectories.length + 1]
            (⟨[defPendulum, defPendulum], [vzero], 0⟩ : JoinedPendulum ℝ)).trajectoryIndex)
        vzero
      = (((Update Real.sin Real.cos 1 1)^[2]
          (⟨[defPendulum, defPendulum], [vzero], 0⟩ : JoinedPendulum ℝ)).pendulums.getD
          ((⟨[defPendulum, defPendulum], [vzero], 0⟩ : JoinedPendulum ℝ).pendulums.length - 1)
          defPendulum).position) :=
  ⟨by norm_num, by norm_num, rfl,
    trajectory_oldest_entry_after_wrap 1 1 ⟨[defPendulum, defPendulum], [vzero], 0⟩
      (by norm_num) (by norm_num) rfl⟩

/-! ## Claim C5 (divergence estimator refines the spec's mean) -/

theorem foldl_add_range (f : ℕ → R) (k : ℕ) :
    (List.range k).foldl (fun acc s => acc + f s) 0 = ∑ s ∈ Finset.range k, f s := by
  induction k with
  | zero => simp
  | succ k ih =>
    rw [List.range_succ, List.foldl_append, Finset.sum_range_succ, ih]
    rfl

/-- Claim C5, confirmed: `GetDivergence` returns exactly the spec's value —
`0.0` on the empty population, and otherwise the mean over
`s ∈ [0, resetSampleCount)` of the Euclidean distance between the tips of
the chains at index `floor(s * chainCount / (resetSampleCount + 1))` and
at that index plus one. -/
theorem divergence_matches_spec_mean (k : ℕ) (pop : List (JoinedPendulum ℝ)) :
    GetDivergence Real.sqrt k pop = specDivergence Real.sqrt k pop := by
  have hidx : ∀ s : ℕ,
      ⌊(s : ℝ) * (pop.length : ℝ) / ((k : ℝ) + 1)⌋₊ = sampleIndex pop.length k s := by
    intro s
    rw [show ((k : ℝ) + 1) = ((k + 1 : ℕ) : ℝ) by push_cast; ring,
      show (s : ℝ) * (pop.length : ℝ) = ((s * pop.length : ℕ) : ℝ) by push_cast; ring,
      Nat.floor_div_nat, Nat.floor_natCast]
    rfl
  unfold GetDivergence specDivergence
  rcases pop with _ | ⟨c, pop⟩
  · simp
  · rw [if_neg (by simp), if_neg (by simp), foldl_add_range]
    simp only [hidx]

/-! ## Claim C6 (divergence sampling bounds) -/

/-- Counterexample to claim C6: with a non-empty population of one chain
(`chainCount = 1`) and `resetSampleCount = 1`, sample `s = 0` reads index
`floor(0 * 1 / 2) = 0` and then index `0 + 1 = 1`, which is not within the
population bounds (`1 < 1` fails): `GetDivergence` reads out of bounds. -/
theorem divergence_sampling_out_of_bounds_example :
    ¬ (∀ s, s < 1 → sampleIndex 1 1 s + 1 < 1) := by
  decide

/-- Amended claim C6: the adjacent-pair accesses of the divergence
estimator stay in bounds provided `resetSampleCount + 1 < 2 * chainCount`
(in particular for the defaults `chainCount = 1000`,
`resetSampleCount = 100`); this bound is what the shape of the index
formula actually guarantees, and without it the last samples reach
`index + 1 = chainCount`. -/
theorem divergence_sampling_in_bounds (M k s : ℕ) (hk : k + 1 < 2 * M)
    (hs : s < k) :
    sampleIndex M k s + 1 < M := by
  have hM : 1 ≤ M := by omega
  have h1 : s * M ≤ (k - 1) * M := Nat.mul_le_mul_right M (by omega)
  have h2 : (k - 1) * M < (M - 1) * (k + 1) := by
    zify [show (1 : ℕ) ≤ k by omega, hM]
    nlinarith
  have h3 : s * M < (M - 1) * (k + 1) := lt_of_le_of_lt h1 h2
  have hdiv : s * M / (k + 1) < M - 1 :=
    (Nat.div_lt_iff_lt_mul (by omega)).mpr h3
  unfold sampleIndex
  omega

theorem divergence_sampling_in_bounds_witness :
    2 + 1 < 2 * 3 ∧ 1 < 2 ∧ sampleIndex 3 2 1 + 1 < 3 :=
  ⟨by decide, by decide, divergence_sampling_in_bounds 3 2 1 (by decide) (by decide)⟩

/-! ## Claim C9 (constructor size checks) -/

/-- Claim C9, confirmed: chain construction fails — the constructor throws,
modelled as `Except.error` — exactly when one of the `lengths`, `masses`
or `initialAngles` arrays has a size different from the requested segment
count; in the error case no `JoinedPendulum` value is produced at all
(the `Except.error` branch carries only the message). -/
theorem construction_error_iff_size_mismatch (size : ℕ)
    (lengths masses initialAngles : List ℝ) (trajSize : ℕ) :
    isFailure (mkJoinedPendulum Real.sin Real.cos size lengths masses
        initialAngles trajSize) = true ↔
      (lengths.length ≠ size ∨ masses.length ≠ size ∨
        initialAngles.length ≠ size) := by
  unfold mkJoinedPendulum
  split_ifs with h1 h2 h3
  · simp [isFailure, h1]
  · simp [isFailure, h2]
  · simp [isFailure, h3]
  · simp [isFailure, h1, h2, h3]

/-! ## Claim C8 (population seeding) -/

theorem getD_range_map {β : Type} (f : ℕ → β) (n i : ℕ) (d : β) (h : i < n) :
    ((List.range n).map f).getD i d = f i := by
  rw [List.getD_eq_getElem?_getD, List.getElem?_map, List.getElem?_range h]
  rfl

theorem getD_replicate {α : Type} (a d : α) (n i : ℕ) :
    (List.replicate n a).getD i d = if i < n then a else d := by
  rw [List.getD_eq_getElem?_getD, List.getElem?_replicate]
  split_ifs <;> rfl

theorem chainFrom_angle (sin cos : R → R) (l : List (Pendulum R)) :
    ∀ (prev : Vec2 R) (j : Nat),
      ((chainFrom sin cos prev l).getD j defPendulum).angle =
        (l.getD j defPendulum).angle := by
  induction l with
  | nil => intro prev j; rfl
  | cons p ps ih =>
    intro prev j
    cases j with
    | zero => rfl
    | succ j =>
      rw [chainFrom]
      simp only [List.getD_cons_succ]
      exact ih _ j

theorem buildChain_angle (sin cos : R → R) (lengths masses initialAngles : List R)
    (size : Nat) (j : Nat) :
    ((buildChain sin cos lengths masses initialAngles size).getD j defPendulum).angle =
      ((mkPendulumList lengths masses initialAngles size).getD j defPendulum).angle := by
  unfold buildChain
  rcases hm : mkPendulumList lengths masses initialAngles size with _ | ⟨p, rest⟩
  · rfl
  · cases j with
    | zero => rfl
    | succ j =>
      simp only [List.getD_cons_succ]
      exact chainFrom_angle sin cos rest _ j

theorem mkPendulumList_angle (lengths masses initialAngles : List R)
    (size i : Nat) (h : i < size) :
    ((mkPendulumList lengths masses initialAngles size).getD i defPendulum).angle =
      initialAngles.getD i 0 := by
  unfold mkPendulumList
  rw [getD_range_map _ _ i _ h]

/-- Claim C8, confirmed: seeding with chain count `M`, segment count
`N ≥ 1` and generation counter `G` gives chain `i` the first-segment angle
`π + 0.125 + (i/M)*0.0001 + ((G*0.5 + π/8) mod (π/4)) − π/8`, every other
segment the angle `π` exactly, a zero-filled trajectory buffer of the
configured capacity, and cursor `0`. -/
theorem population_seeding_formulas (s : SimulationSettings ℝ) (G : ℕ)
    (hN : 1 ≤ s.pendulumsJoined) (i : ℕ) (hi : i < s.joinedPendulumsCount) :
    ∃ jp : JoinedPendulum ℝ,
      (InitializePendulums Real.sin Real.cos Real.pi s G).getD i
          (Except.error "") = Except.ok jp ∧
      (jp.pendulums.getD 0 defPendulum).angle =
        Real.pi + 0.125 + (i : ℝ) / (s.joinedPendulumsCount : ℝ) * 0.0001
          + fmod ((G : ℝ) * 0.5 + Real.pi / 8) (Real.pi / 4) - Real.pi / 8 ∧
      (∀ j, 1 ≤ j → j < s.pendulumsJoined →
        (jp.pendulums.getD j defPendulum).angle = Real.pi) ∧
      jp.trajectories = List.replicate s.trajectoryPoints vzero ∧
      jp.trajectoryIndex = 0 := by
  have hres : (InitializePendulums Real.sin Real.cos Real.pi s G).getD i
      (Except.error "")
      = mkJoinedPendulum Real.sin Real.cos s.pendulumsJoined
          (List.replicate s.pendulumsJoined s.pendulumLength)
          (List.replicate s.pendulumsJoined s.pendulumMass)
          ((List.replicate s.pendulumsJoined Real.pi).set 0
            (Real.pi + 0.125 + (i : ℝ) / (s.joinedPendulumsCount : ℝ) * 0.0001
              + (fmod ((G : ℝ) * 0.5 + Real.pi / 8) (Real.pi / 4) - Real.pi / 8)))
          s.trajectoryPoints := by
    unfold InitializePendulums
    exact getD_range_map _ _ i _ hi
  have hok : mkJoinedPendulum Real.sin Real.cos s.pendulumsJoined
      (List.replicate s.pendulumsJoined s.pendulumLength)
      (List.replicate s.pendulumsJoined s.pendulumMass)
      ((List.replicate s.pendulumsJoined Real.pi).set 0
        (Real.pi + 0.125 + (i : ℝ) / (s.joinedPendulumsCount : ℝ) * 0.0001
          + (fmod ((G : ℝ) * 0.5 + Real.pi / 8) (Real.pi / 4) - Real.pi / 8)))
      s.trajectoryPoints
      = Except.ok
          { pendulums := buildChain Real.sin Real.cos
              (List.replicate s.pendulumsJoined s.pendulumLength)
              (List.replicate s.pendulumsJoined s.pendulumMass)
              ((List.replicate s.pendulumsJoined Real.pi).set 0
                (Real.pi + 0.125 + (i : ℝ) / (s.joinedPendulumsCount : ℝ) * 0.0001
                  + (fmod ((G : ℝ) * 0.5 + Real.pi / 8) (Real.pi / 4) - Real.pi / 8)))
              s.pendulumsJoined,
            trajectories := List.replicate s.trajectoryPoints vzero,
            trajectoryIndex := 0 } := by
    unfold mkJoinedPendulum
    rw [if_neg (by simp), if_neg (by simp), if_neg (by simp)]
  refine ⟨_, by rw [hres, hok], ?_, ?_, rfl, rfl⟩
  · show ((buildChain Real.sin Real.cos _ _ _ _).getD 0 defPendulum).angle = _
    rw [buildChain_angle, mkPendulumList_angle _ _ _ _ 0 (by omega), getD_set,
      if_pos ⟨rfl, by simp; omega⟩]
    ring
  · intro j hj1 hjN
    show ((buildChain Real.sin Real.cos _ _ _ _).getD j defPendulum).angle = _
    rw [buildChain_angle, mkPendulumList_angle _ _ _ _ j hjN, getD_set,
      if_neg (by intro hc; omega), getD_replicate, if_pos hjN]

theorem population_seeding_formulas_witness :
    1 ≤ (⟨1, 1, 2, 1, 1, 1, 1, 10, 1, 1⟩ : SimulationSettings ℝ).pendulumsJoined ∧
    0 < (⟨1, 1, 2, 1, 1, 1, 1, 10, 1, 1⟩ : SimulationSettings ℝ).joinedPendulumsCount ∧
    (∃ jp : JoinedPendulum ℝ,
      (InitializePendulums Real.sin Real.cos Real.pi
          (⟨1, 1, 2, 1, 1, 1, 1, 10, 1, 1⟩ : SimulationSettings ℝ) 0).getD 0
          (Except.error "") = Except.ok jp ∧
      (jp.pendulums.getD 0 defPendulum).angle =
        Real.pi + 0.125 + ((0 : ℕ) : ℝ) /
            ((⟨1, 1, 2, 1, 1, 1, 1, 10, 1, 1⟩ : SimulationSettings ℝ).joinedPendulumsCount : ℝ)
            * 0.0001
          + fmod (((0 : ℕ) : ℝ) * 0.5 + Real.pi / 8) (Real.pi / 4) - Real.pi / 8 ∧
      (∀ j, 1 ≤ j →
          j < (⟨1, 1, 2, 1, 1, 1, 1, 10, 1, 1⟩ : SimulationSettings ℝ).pendulumsJoined →
        (jp.pendulums.getD j defPendulum).angle = Real.pi) ∧
      jp.trajectories = List.replicate
        (⟨1, 1, 2, 1, 1, 1, 1, 10, 1, 1⟩ : SimulationSettings ℝ).trajectoryPoints vzero ∧
      jp.trajectoryIndex = 0) :=
  ⟨by norm_num, by norm_num,
    population_seeding_formulas ⟨1, 1, 2, 1, 1, 1, 1, 10, 1, 1⟩ 0 (by norm_num) 0
      (by norm_num)⟩

end HypPend
